import Mathlib

/-!
Shallow embedding of the stage-option generators of
`internal/distro/rhel86/stage_options.go` (osbuild-composer), together with
the Go standard-library string/path helpers the generators call.

Conventions of the embedding:
* Go `panic` is modelled by an `Option`-valued result (`none` = the call
  panics and no record is produced).
* Recoverable Go `error` returns are modelled by `Except String`.
* A Go map is modelled by an association list; the list order stands for one
  iteration order of the map (Go leaves map iteration order unspecified).
* Go strings are Lean `String`s; all character-level work is done on the
  underlying `List Char` with structural recursion, because Go compares
  strings byte-by-byte and for valid UTF-8 the byte order coincides with the
  code-point order.
-/

/-! ## Go standard-library helpers (byte/char level) -/

/-- Go's `<` on strings, on the underlying character lists: plain
lexicographic order. -/
def goCharsLt : List Char → List Char → Bool
  | [], [] => false
  | [], _ :: _ => true
  | _ :: _, [] => false
  | a :: as, b :: bs =>
    if a < b then true
    else if b < a then false
    else goCharsLt as bs

/-- Go's `<` on strings (plain lexicographic order). -/
def goStrLt (s t : String) : Bool :=
  goCharsLt s.data t.data

/-- Go's `strings.HasPrefix s pre`. -/
def goStartsWith (s pre : String) : Bool :=
  pre.data.isPrefixOf s.data

/-- Split a character list on `'/'` (Go `strings.Split(s, "/")`). -/
def splitSlash : List Char → List (List Char)
  | [] => [[]]
  | c :: cs =>
    if c = '/' then [] :: splitSlash cs
    else
      match splitSlash cs with
      | [] => [[c]]
      | h :: t => (c :: h) :: t

/-- Join character-list components with `'/'` separators
(Go `strings.Join(elems, "/")`). -/
def intercalateSlash : List (List Char) → List Char
  | [] => []
  | [c] => c
  | c :: cs => c ++ '/' :: intercalateSlash cs

/-- Go `filepath.Base` (unix rules): strip trailing slashes, keep the last
path element; `""` gives `"."`, an all-slash path gives `"/"`. -/
def goBase (path : String) : String :=
  if path.data = [] then "."
  else
    let p := (path.data.reverse.dropWhile (fun c => c = '/')).reverse
    let name := (p.reverse.takeWhile (fun c => c ≠ '/')).reverse
    if name = [] then "/" else ⟨name⟩

/-- One step of Go `filepath.Clean`'s component normalisation: handle a
`".."` component against the output stack. -/
def cleanStep (rooted : Bool) (acc : List (List Char)) (comp : List Char) :
    List (List Char) :=
  if comp = ['.', '.'] then
    match acc.getLast? with
    | some l => if l = ['.', '.'] then acc ++ [comp] else acc.dropLast
    | none => if rooted then [] else [comp]
  else acc ++ [comp]

/-- Go `filepath.Clean` (unix rules): drop empty and `"."` components,
resolve `".."`, keep rootedness. -/
def goClean (path : String) : String :=
  if path.data = [] then "."
  else
    let rooted := path.data.head? = some '/'
    let comps := (splitSlash path.data).filter
      (fun c => !(c == [] || c == ['.']))
    let out := comps.foldl (cleanStep rooted) []
    let body := intercalateSlash out
    if rooted then ⟨'/' :: body⟩
    else if body = [] then "." else ⟨body⟩

/-- Go `filepath.Join`: drop empty elements, join with `'/'`, then clean. -/
def goJoin (elems : List String) : String :=
  let ne := (elems.map String.data).filter (fun e => !(e == []))
  if ne = [] then "" else goClean ⟨intercalateSlash ne⟩

/-- Lower-case hex digit for a value below 16. -/
def hexDigitChar (n : Nat) : Char :=
  if n < 10 then Char.ofNat (48 + n) else Char.ofNat (87 + n)

/-- Escaping of one character under Go's `%q` verb (`strconv.Quote`). -/
def goQuoteChar (c : Char) : List Char :=
  if c = '"' then ['\\', '"']
  else if c = '\\' then ['\\', '\\']
  else if c = '\n' then ['\\', 'n']
  else if c = '\t' then ['\\', 't']
  else if c = '\r' then ['\\', 'r']
  else if c.toNat = 7 then ['\\', 'a']
  else if c.toNat = 8 then ['\\', 'b']
  else if c.toNat = 11 then ['\\', 'v']
  else if c.toNat = 12 then ['\\', 'f']
  else if c.toNat < 32 || c.toNat = 127 then
    ['\\', 'x', hexDigitChar (c.toNat / 16), hexDigitChar (c.toNat % 16)]
  else [c]

/-- Go's `%q` formatting verb: a double-quoted, escaped string. -/
def goQuote (s : String) : String :=
  ⟨'"' :: (s.data.flatMap goQuoteChar ++ ['"'])⟩

/-- Hexadecimal digit test. -/
def isHexDigit (c : Char) : Bool :=
  (('0' ≤ c) && (c ≤ '9')) || (('a' ≤ c) && (c ≤ 'f')) ||
    (('A' ≤ c) && (c ≤ 'F'))

/-- Canonical 8-4-4-4-12 UUID format test. -/
def isCanonicalUUID (s : String) : Bool :=
  s.data.length == 36 &&
    (List.range 36).all (fun i =>
      if i == 8 || i == 13 || i == 18 || i == 23 then s.data.getD i ' ' == '-'
      else isHexDigit (s.data.getD i ' '))

/-- Modelled from the spec: `uuid.MustParse` of the external `github.com/google/uuid`
package (not part of this repository). It panics (`none`) unless the
identifier is a well-formed UUID; the parsed value is kept as its string. -/
def uuidMustParse (s : String) : Option String :=
  if isCanonicalUUID s then some s else none

/-- Value-level model of Go map insertion `m[k] = v` on an association-list
representation: overwrite the existing entry for `k`, else add one. -/
def mapInsert {β : Type} (m : List (String × β)) (k : String) (v : β) :
    List (String × β) :=
  if m.any (fun e => e.1 == k) then
    m.map (fun e => if e.1 == k then (k, v) else e)
  else m ++ [(k, v)]

/-! ## Data model (disk, blueprint, osbuild records) -/

/-- Modelled from the spec (§3): `disk.Filesystem` — type tag, identifier,
mountpoint path (the `internal/disk` package is not under `src/`). Field
`fstype` is the Go field `Type`. -/
structure Filesystem where
  fstype : String
  uuid : String
  mountpoint : String
deriving DecidableEq

/-- Modelled from the spec (§3): `disk.Partition` — bootable flag, size,
start offset, type code, identifier, optional `Filesystem`. Field `parttype`
is the Go field `Type`. -/
structure Partition where
  bootable : Bool
  size : Nat
  start : Nat
  parttype : String
  uuid : String
  filesystem : Option Filesystem
deriving DecidableEq

/-- Modelled from the spec (§3): `disk.PartitionTable` — label scheme
(`tabletype`, the Go field `Type`), identifier, ordered partitions. -/
structure PartitionTable where
  tabletype : String
  uuid : String
  partitions : List Partition
deriving DecidableEq

/-- Modelled from the spec (§3): `disk.PartitionTable.BootPartitionIndex` —
the first partition whose filesystem is mounted at `"/boot"` determines the
boot partition index, falling back to the partition mounted at `"/"` when no
dedicated boot partition exists; the Go sentinel `-1` for "none found" is
modelled as `none`. -/
def bootPartitionIndex (pt : PartitionTable) : Option Nat :=
  match pt.partitions.findIdx?
      (fun p => p.filesystem.any (fun fs => fs.mountpoint == "/boot")) with
  | some idx => some idx
  | none =>
    pt.partitions.findIdx?
      (fun p => p.filesystem.any (fun fs => fs.mountpoint == "/"))

/-- Modelled from the spec (§3): `blueprint.UserCustomization` — name plus
optional password/key/uid/gid/groups/home/shell and a description (the
`internal/blueprint` package is not under `src/`). -/
structure UserCustomization where
  name : String
  description : Option String
  password : Option String
  key : Option String
  home : Option String
  shell : Option String
  groups : List String
  uid : Option Int
  gid : Option Int
deriving DecidableEq

/-- Modelled from the spec: `osbuild2.UsersStageOptionsUser` — the engine's
per-user record shape (the `internal/osbuild2` package is not under `src/`). -/
structure UsersStageOptionsUser where
  groups : List String
  description : Option String
  home : Option String
  shell : Option String
  password : Option String
  key : Option String
  uid : Option Int
  gid : Option Int
deriving DecidableEq

/-- Modelled from the spec: `osbuild2.UsersStageOptions` — a map from user
name to user record; the association list stands for the Go map, its order
for one iteration order. -/
structure UsersStageOptions where
  users : List (String × UsersStageOptionsUser)
deriving DecidableEq

/-- Modelled from the spec: `osbuild2.FirstBootStageOptions` — an ordered
command script plus a wait-for-network flag. -/
structure FirstBootStageOptions where
  commands : List String
  waitForNetwork : Bool
deriving DecidableEq

/-- Modelled from the spec: `crypt.PasswordIsCrypted` of `internal/crypt`
(not under `src/`) — recognises the crypted forms by their `$6$`, `$5$`,
`$2b$` prefixes. -/
def PasswordIsCrypted (s : String) : Bool :=
  goStartsWith s "$6$" || goStartsWith s "$5$" || goStartsWith s "$2b$"

/-- Modelled from the spec: `osbuild2.LoopbackDeviceOptions` — backing file
name and the byte range of the partition. -/
structure LoopbackDeviceOptions where
  filename : String
  start : Nat
  size : Nat
deriving DecidableEq

/-- The dynamic type of a device's options, as used by the Go type
assertion in `copyFSTreeOptions`. -/
inductive DeviceOptions where
  | loopback (opts : LoopbackDeviceOptions)
  | nonLoopback
deriving DecidableEq

/-- Modelled from the spec: `osbuild2.Device`. -/
structure Device where
  devtype : String
  options : DeviceOptions
deriving DecidableEq

/-- Modelled from the spec: `osbuild2.NewLoopbackDevice`. -/
def NewLoopbackDevice (opts : LoopbackDeviceOptions) : Device :=
  { devtype := "org.osbuild.loopback", options := DeviceOptions.loopback opts }

/-- Modelled from the spec: `osbuild2.Mount` — logical name, mount kind,
source device reference, target path. -/
structure Mount where
  name : String
  mounttype : String
  source : String
  target : String
deriving DecidableEq

/-- Modelled from the spec: `osbuild2.NewXfsMount`. -/
def NewXfsMount (name source target : String) : Mount :=
  { name := name, mounttype := "org.osbuild.xfs", source := source, target := target }

/-- Modelled from the spec: `osbuild2.NewFATMount`. -/
def NewFATMount (name source target : String) : Mount :=
  { name := name, mounttype := "org.osbuild.fat", source := source, target := target }

/-- Modelled from the spec: `osbuild2.NewExt4Mount`. -/
def NewExt4Mount (name source target : String) : Mount :=
  { name := name, mounttype := "org.osbuild.ext4", source := source, target := target }

/-- Modelled from the spec: `osbuild2.NewBtrfsMount`. -/
def NewBtrfsMount (name source target : String) : Mount :=
  { name := name, mounttype := "org.osbuild.btrfs", source := source, target := target }

/-- Modelled from the spec: `osbuild2.CopyStagePath` (`from`/`to`). -/
structure CopyStagePath where
  fromPath : String
  toPath : String
deriving DecidableEq

/-- Modelled from the spec: `osbuild2.CopyStageOptions`. -/
structure CopyStageOptions where
  paths : List CopyStagePath
deriving DecidableEq

/-- Modelled from the spec: `blueprint.KernelCustomization` — the
user-supplied kernel append string. -/
structure KernelCustomization where
  append : String
deriving DecidableEq

/-- Modelled from the spec: `osbuild2.GRUB2UEFI` — vendor string and install
flag of the UEFI sub-record. -/
structure GRUB2UEFI where
  vendor : String
  install : Bool
deriving DecidableEq

/-- Modelled from the spec: `osbuild2.GRUB2StageOptions`. The Go `Legacy`
and `SavedEntry` fields are strings with `omitempty`; "not carried" means
the empty string, the `UEFI` sub-record is a nullable pointer. -/
structure GRUB2StageOptions where
  rootFilesystemUUID : String
  bootFilesystemUUID : Option String
  kernelOptions : String
  legacy : String
  uefi : Option GRUB2UEFI
  savedEntry : String
deriving DecidableEq

/-- Modelled from the spec: `osbuild2.CoreMkImage` (`imagetype` is the Go
field `Type`). -/
structure CoreMkImage where
  imagetype : String
  partLabel : String
  filesystem : String
deriving DecidableEq

/-- Modelled from the spec: the boot-sector installer's partition-reference
record (`reftype` is the Go field `Type`). -/
structure PrefixPartitionRef where
  reftype : String
  partLabel : String
  number : Nat
  path : String
deriving DecidableEq

/-- Modelled from the spec: `osbuild2.Grub2InstStageOptions`
(`prefixPart` is the Go field named after the search path). -/
structure Grub2InstStageOptions where
  filename : String
  platform : String
  location : Nat
  core : CoreMkImage
  prefixPart : PrefixPartitionRef
deriving DecidableEq

/-- Modelled from the spec: `osbuild2.DracutStageOptions`. -/
structure DracutStageOptions where
  kernel : List String
  modules : List String
  install : List String
deriving DecidableEq

/-- Modelled from the spec: `osbuild2.Product`. -/
structure ISOProduct where
  name : String
  version : String
deriving DecidableEq

/-- Modelled from the spec: `osbuild2.EFI`. -/
structure EFI where
  architectures : List String
  vendor : String
deriving DecidableEq

/-- Modelled from the spec: `osbuild2.ISOLinux`. -/
structure ISOLinuxOptions where
  enabled : Bool
  debug : Bool
deriving DecidableEq

/-- Modelled from the spec: `osbuild2.FSCompressionOptions` (the BCJ filter,
empty when the architecture has none). -/
structure FSCompressionOptions where
  bcj : String
deriving DecidableEq

/-- Modelled from the spec: `osbuild2.FSCompression`. -/
structure FSCompression where
  method : String
  options : FSCompressionOptions
deriving DecidableEq

/-- Modelled from the spec: `osbuild2.RootFS`. -/
structure RootFSOptions where
  size : Nat
  compression : FSCompression
deriving DecidableEq

/-- Modelled from the spec: `osbuild2.BootISOMonoStageOptions`. -/
structure BootISOMonoStageOptions where
  product : ISOProduct
  isoLabel : String
  kernel : String
  kernelOpts : String
  efi : EFI
  isolinux : ISOLinuxOptions
  templates : String
  rootfs : RootFSOptions
deriving DecidableEq

/-- Modelled from the spec: `osbuild2.ISOKernel`. -/
structure ISOKernel where
  dir : String
  opts : List String
deriving DecidableEq

/-- Modelled from the spec: `osbuild2.GrubISOStageOptions`. -/
structure GrubISOStageOptions where
  product : ISOProduct
  isoLabel : String
  kernel : ISOKernel
  architectures : List String
  vendor : String
deriving DecidableEq

/-- Modelled from the spec: `distro.X86_64ArchName` of `internal/distro`
(not under `src/`). -/
def X86_64ArchName : String := "x86_64"

/-- Modelled from the spec: `distro.Aarch64ArchName` of `internal/distro`
(not under `src/`). -/
def Aarch64ArchName : String := "aarch64"

/-- Modelled from the spec: `osbuild2.BCJOption` — the architecture-conditional
secondary compression filter name, empty for architectures without one. -/
def BCJOption (arch : String) : String :=
  if arch = "x86_64" then "x86"
  else if arch = "s390x" then "s390"
  else if arch = "ppc64le" then "powerpc"
  else if arch = "aarch64" then "arm"
  else ""

/-- The fixed kickstart path constant `kspath` of `stage_options.go`. -/
def kspath : String := "/osbuild.ks"

/-! ## The generators (from `stage_options.go`) -/

/-- The password-resolution step of `userStageOptions`: a password already
in crypted form passes through, a plaintext one is run through the supplied
SHA-512 crypt function (the `crypt.CryptSHA512` collaborator, which is not
under `src/`, is a parameter). -/
def cryptUserPassword (cryptSHA512 : String → Except String String)
    (pw : Option String) : Except String (Option String) :=
  match pw with
  | none => Except.ok none
  | some p =>
    if PasswordIsCrypted p then Except.ok (some p)
    else (cryptSHA512 p).map some

/-- One loop iteration of `userStageOptions`: resolve the password, project
the customization into the engine's user record, store it under the user's
name. -/
def userStageOptionsStep (cryptSHA512 : String → Except String String)
    (acc : List (String × UsersStageOptionsUser)) (c : UserCustomization) :
    Except String (List (String × UsersStageOptionsUser)) :=
  (cryptUserPassword cryptSHA512 c.password).map fun pw =>
    mapInsert acc c.name
      { groups := c.groups, description := c.description, home := c.home,
        shell := c.shell, password := pw, key := c.key,
        uid := c.uid, gid := c.gid }

/-- `userStageOptions` of `stage_options.go`, parameterised by the external
`crypt.CryptSHA512` function. -/
def userStageOptions (cryptSHA512 : String → Except String String)
    (users : List UserCustomization) : Except String UsersStageOptions :=
  (users.foldlM (userStageOptionsStep cryptSHA512) []).map UsersStageOptions.mk

/-- The command triple `usersFirstBootOptions` emits for one user that
carries an SSH key (no commands otherwise). -/
def firstBootUserCmds (name : String) (user : UsersStageOptionsUser) :
    List String :=
  match user.key with
  | none => []
  | some key =>
    let varhome := goJoin ["/var", "home"]
    let sshdir := goJoin [varhome, name, ".ssh"]
    ["mkdir -p " ++ sshdir,
     "sh -c 'echo " ++ goQuote key ++ " >> " ++
       goQuote (goJoin [sshdir, "authorized_keys"]) ++ "'",
     "chown " ++ name ++ ":" ++ name ++ " -Rc " ++ sshdir]

/-- `usersFirstBootOptions` of `stage_options.go`. The commands are produced
by ranging over the users map; the association-list order plays the role of
the map iteration order of that range. -/
def usersFirstBootOptions (usersStageOptions : UsersStageOptions) :
    FirstBootStageOptions :=
  let varhome := goJoin ["/var", "home"]
  let cmds :=
    (usersStageOptions.users.flatMap fun nu => firstBootUserCmds nu.1 nu.2) ++
      ["restorecon -rvF " ++ varhome]
  { commands := cmds, waitForNetwork := false }

/-- The fixed baseline dracut module list of `dracutStageOptions`. -/
def dracutBaseModules : List String :=
  ["bash", "systemd", "fips", "systemd-initrd", "modsign", "nss-softokn",
   "rdma", "rngd", "i18n", "convertfs", "network-manager", "network",
   "ifcfg", "url-lib", "drm", "plymouth", "prefixdevname",
   "prefixdevname-tools", "crypt", "dm", "dmsquash-live", "kernel-modules",
   "kernel-modules-extra", "kernel-network-modules", "livenet", "lvm",
   "mdraid", "multipath", "qemu", "qemu-net", "fcoe", "fcoe-uefi", "iscsi",
   "lunmask", "nfs", "resume", "rootfs-block", "terminfo", "udev-rules",
   "dracut-systemd", "pollcdrom", "usrmount", "base", "fs-lib", "img-lib",
   "shutdown", "uefi-lib"]

/-- `dracutStageOptions` of `stage_options.go`. -/
def dracutStageOptions (kernelVer arch : String)
    (additionalModules : List String) : DracutStageOptions :=
  let kernel := [kernelVer]
  let modules := dracutBaseModules
  let modules := if arch = X86_64ArchName then modules ++ ["biosdevname"] else modules
  let modules := modules ++ additionalModules
  { kernel := kernel, modules := modules, install := ["/.buildstamp"] }

/-- `bootISOMonoStageOptions` of `stage_options.go`; the `panic` on an
unsupported architecture is `none`. -/
def bootISOMonoStageOptions (kernelVer arch vendor product osVersion isolabel : String) :
    Option BootISOMonoStageOptions :=
  let comprOptions : FSCompressionOptions := { bcj := BCJOption arch }
  let mkOpts := fun (architectures : List String) =>
    { product := { name := product, version := osVersion },
      isoLabel := isolabel,
      kernel := kernelVer,
      kernelOpts := "inst.ks=hd:LABEL=" ++ isolabel ++ ":" ++ kspath,
      efi := { architectures := architectures, vendor := vendor },
      isolinux := { enabled := arch == X86_64ArchName, debug := false },
      templates := "80-rhel",
      rootfs := { size := 9216,
                  compression := { method := "xz", options := comprOptions } }
      : BootISOMonoStageOptions }
  if arch = X86_64ArchName then some (mkOpts ["IA32", "X64"])
  else if arch = Aarch64ArchName then some (mkOpts ["AA64"])
  else none

/-- `grubISOStageOptions` of `stage_options.go`; the `panic` on an
unsupported architecture is `none`. -/
def grubISOStageOptions (installDevice kernelVer arch vendor product osVersion isolabel : String) :
    Option GrubISOStageOptions :=
  let mkOpts := fun (architectures : List String) =>
    { product := { name := product, version := osVersion },
      isoLabel := isolabel,
      kernel := { dir := "/images/pxeboot",
                  opts := ["rd.neednet=1",
                           "console=tty0",
                           "console=ttyS0",
                           "systemd.log_target=console",
                           "systemd.journald.forward_to_console=1",
                           "edge.liveiso=" ++ isolabel,
                           "coreos.inst.install_dev=" ++ installDevice,
                           "coreos.inst.image_file=/run/media/iso/disk.img.xz",
                           "coreos.inst.insecure"] },
      architectures := architectures,
      vendor := vendor
      : GrubISOStageOptions }
  if arch = "x86_64" then some (mkOpts ["IA32", "X64"])
  else if arch = "aarch64" then some (mkOpts ["AA64"])
  else none

/-- The mutation chain of `grub2StageOptions` after all identifiers parsed:
the record starts with `Legacy` set, the UEFI sub-record is attached when
`uefi` is set, `Legacy` is (re)assigned when `uefi` is unset, and the kernel
customization appends options and records the saved-entry marker. -/
def grub2Assemble (rootUUID : String) (bootUUID : Option String)
    (kernelOptions : String) (kernel : Option KernelCustomization)
    (kernelVer : String) (uefi : Bool) (legacy vendor : String)
    (install : Bool) : GRUB2StageOptions :=
  let s0 : GRUB2StageOptions :=
    { rootFilesystemUUID := rootUUID, bootFilesystemUUID := bootUUID,
      kernelOptions := kernelOptions, legacy := legacy, uefi := none,
      savedEntry := "" }
  let s1 := if uefi then { s0 with uefi := some { vendor := vendor, install := install } } else s0
  let s2 := if !uefi then { s1 with legacy := legacy } else s1
  match kernel with
  | none => s2
  | some k =>
    let opts := if k.append ≠ "" then s2.kernelOptions ++ " " ++ k.append
                else s2.kernelOptions
    { s2 with kernelOptions := opts,
              savedEntry := "ffffffffffffffffffffffffffffffff-" ++ kernelVer }

/-- The boot-filesystem identifier part of `grub2StageOptions`: nothing to
parse without a boot partition, a panic (`none`) on a filesystem-less boot
partition or a malformed identifier. -/
def grub2BootUUID (bootPartition : Option Partition) : Option (Option String) :=
  match bootPartition with
  | none => some none
  | some bootPart =>
    match bootPart.filesystem with
    | none => none
    | some bootFS => (uuidMustParse bootFS.uuid).map some

/-- `grub2StageOptions` of `stage_options.go`. `none` models the panics: a
nil root partition, and `uuid.MustParse` on a malformed filesystem UUID (a
nil `Filesystem` pointer dereference is a panic as well). -/
def grub2StageOptions (rootPartition bootPartition : Option Partition)
    (kernelOptions : String) (kernel : Option KernelCustomization)
    (kernelVer : String) (uefi : Bool) (legacy vendor : String)
    (install : Bool) : Option GRUB2StageOptions :=
  match rootPartition with
  | none => none
  | some rootPart =>
    match rootPart.filesystem with
    | none => none
    | some rootFS =>
      match uuidMustParse rootFS.uuid with
      | none => none
      | some rootUUID =>
        match grub2BootUUID bootPartition with
        | none => none
        | some bootUUID =>
          some (grub2Assemble rootUUID bootUUID kernelOptions kernel
            kernelVer uefi legacy vendor install)

/-- The per-partition body of the loop in `copyFSTreeOptions`: partitions
without a filesystem are skipped, the device name is the final path segment
of the mountpoint (`"root"` for `"/"`), the mount constructor is selected by
the filesystem type, and an unknown type panics (`none`). -/
def copyFSTreeStep (devOptions : LoopbackDeviceOptions)
    (acc : List (String × Device) × List Mount) (p : Partition) :
    Option (List (String × Device) × List Mount) :=
  match p.filesystem with
  | none => some acc
  | some fs =>
    let base := goBase fs.mountpoint
    let name := if base = "/" then "root" else base
    let devices := mapInsert acc.1 name
      (NewLoopbackDevice { filename := devOptions.filename, start := p.start, size := p.size })
    match fs.fstype with
    | "xfs" => some (devices, acc.2 ++ [NewXfsMount name name fs.mountpoint])
    | "vfat" => some (devices, acc.2 ++ [NewFATMount name name fs.mountpoint])
    | "ext4" => some (devices, acc.2 ++ [NewExt4Mount name name fs.mountpoint])
    | "btrfs" => some (devices, acc.2 ++ [NewBtrfsMount name name fs.mountpoint])
    | _ => none

/-- The comparison `copyFSTreeOptions` sorts with: `sort.Slice` with
`mounts[i].Target < mounts[j].Target` produces an order in which no later
target is `<` an earlier one. -/
def mountTargetLe (a b : Mount) : Prop :=
  goStrLt b.target a.target = false

instance : DecidableRel mountTargetLe := fun a b =>
  inferInstanceAs (Decidable (goStrLt b.target a.target = false))

/-- `copyFSTreeOptions` of `stage_options.go`. `none` models the panics (a
non-loopback device, an unknown filesystem type); Go's `sort.Slice` — an
arbitrary sorting algorithm run with the target-path `<` — is modelled by a
sort satisfying the same contract. -/
def copyFSTreeOptions (inputName inputPipeline : String)
    (pt : PartitionTable) (device : Device) :
    Option (CopyStageOptions × List (String × Device) × List Mount) :=
  match device.options with
  | DeviceOptions.nonLoopback => none
  | DeviceOptions.loopback devOptions =>
    (pt.partitions.foldlM (copyFSTreeStep devOptions) ([], [])).map fun acc =>
      ({ paths := [{ fromPath := "input://" ++ inputName ++ "/",
                     toPath := "mount://root/" }] },
       acc.1,
       List.insertionSort mountTargetLe acc.2)

/-- `grub2InstStageOptions` of `stage_options.go`. `none` models the panic
when the boot-partition lookup finds nothing, and the nil dereferences Go
would hit on a filesystem-less partition or an empty table. -/
def grub2InstStageOptions (filename : String) (pt : PartitionTable)
    (platform : String) : Option Grub2InstStageOptions :=
  match bootPartitionIndex pt with
  | none => none
  | some bootPartIndex =>
    match pt.partitions[bootPartIndex]? with
    | none => none
    | some bootPart =>
      match bootPart.filesystem with
      | none => none
      | some bootFS =>
        match pt.partitions[0]? with
        | none => none
        | some p0 =>
          some { filename := filename, platform := platform,
                 location := p0.start,
                 core := { imagetype := "mkimage", partLabel := pt.tabletype,
                           filesystem := bootFS.fstype },
                 prefixPart := { reftype := "partition",
                                 partLabel := pt.tabletype,
                                 number := bootPartIndex,
                                 path := if bootFS.mountpoint = "/boot"
                                         then "/grub2" else "/boot/grub2" } }

/-! ## Auxiliary predicates used by the claims -/

/-- `s` is a proper path-ancestor of `t`: a proper string prefix that ends
at a path-component boundary (e.g. `"/"` of `"/boot"`, `"/boot"` of
`"/boot/efi"`). -/
def isAncestorPath (s t : String) : Prop :=
  s ≠ t ∧ s.data.isPrefixOf t.data = true ∧
    (s.data.getLast? = some '/' ∨ (t.data.drop s.data.length).head? = some '/')

/-- The relation between an input user customization and the user record
embedded for it: a missing password stays missing, a crypted one passes
through unchanged, a plaintext one is replaced by the crypt function's
output. -/
def pwSpec (cryptSHA512 : String → Except String String)
    (c : UserCustomization) (u : UsersStageOptionsUser) : Prop :=
  (c.password = none ∧ u.password = none) ∨
  (∃ p, c.password = some p ∧ PasswordIsCrypted p = true ∧ u.password = some p) ∨
  (∃ p q, c.password = some p ∧ PasswordIsCrypted p = false ∧
    cryptSHA512 p = Except.ok q ∧ u.password = some q)

/-! ## Concrete example inputs and outputs (used by witnesses and
counterexamples) -/

/-- An EFI system-partition filesystem. -/
def demoEfiFS : Filesystem :=
  { fstype := "vfat", uuid := "7b77-95e7", mountpoint := "/boot/efi" }

/-- A dedicated boot-partition filesystem. -/
def demoBootFS : Filesystem :=
  { fstype := "xfs", uuid := "cca81a28-1b42-4268-a8ce-3180d919b157",
    mountpoint := "/boot" }

/-- A root filesystem. -/
def demoRootFS : Filesystem :=
  { fstype := "ext4", uuid := "76a22bf4-f153-4541-b6c7-0332c0dfaeac",
    mountpoint := "/" }

/-- A four-partition GPT table: BIOS-boot (no filesystem), EFI, `/boot`,
root. -/
def demoPT : PartitionTable :=
  { tabletype := "gpt", uuid := "d209c89e-ea5e-4fbd-b161-b461cce297e0",
    partitions :=
      [{ bootable := true, size := 2048, start := 2048,
         parttype := "21686148-6449-6E6F-744E-656564454649",
         uuid := "fac7f1fb-3e8d-4137-a512-961de09a5549", filesystem := none },
       { bootable := false, size := 204800, start := 4096,
         parttype := "C12A7328-F81F-11D2-BA4B-00A0C93EC93B",
         uuid := "68b2905b-df3e-4fb3-80fa-49d1e773aa33",
         filesystem := some demoEfiFS },
       { bootable := false, size := 1024000, start := 208896,
         parttype := "0FC63DAF-8483-4772-8E79-3D69D8477DE4",
         uuid := "61b2905b-df3e-4fb3-80fa-49d1e773aa32",
         filesystem := some demoBootFS },
       { bootable := false, size := 2048000, start := 1232896,
         parttype := "0FC63DAF-8483-4772-8E79-3D69D8477DE4",
         uuid := "6264d520-3fb9-423f-8ab8-7a0a8e3d3562",
         filesystem := some demoRootFS }] }

/-- A one-partition DOS table with only a root filesystem (no dedicated
boot partition). -/
def demoPTNoBoot : PartitionTable :=
  { tabletype := "dos", uuid := "0x14fc63d2",
    partitions :=
      [{ bootable := true, size := 2048000, start := 2048, parttype := "83",
         uuid := "6264d520-3fb9-423f-8ab8-7a0a8e3d3562",
         filesystem := some demoRootFS }] }

/-- A loopback device over a backing image file. -/
def demoDevice : Device :=
  NewLoopbackDevice { filename := "disk.img", start := 0, size := 0 }

/-- The copy-stage options `copyFSTreeOptions` produces for `demoPT`. -/
def demoCopyOpts : CopyStageOptions :=
  { paths := [{ fromPath := "input://tree/", toPath := "mount://root/" }] }

/-- The device map `copyFSTreeOptions` produces for `demoPT`. -/
def demoDevices : List (String × Device) :=
  [("efi", NewLoopbackDevice { filename := "disk.img", start := 4096, size := 204800 }),
   ("boot", NewLoopbackDevice { filename := "disk.img", start := 208896, size := 1024000 }),
   ("root", NewLoopbackDevice { filename := "disk.img", start := 1232896, size := 2048000 })]

/-- The sorted mount list `copyFSTreeOptions` produces for `demoPT`. -/
def demoSortedMounts : List Mount :=
  [{ name := "root", mounttype := "org.osbuild.ext4", source := "root", target := "/" },
   { name := "boot", mounttype := "org.osbuild.xfs", source := "boot", target := "/boot" },
   { name := "efi", mounttype := "org.osbuild.fat", source := "efi", target := "/boot/efi" }]

/-- The root partition of `demoPT`. -/
def demoRootPart : Partition :=
  { bootable := false, size := 2048000, start := 1232896,
    parttype := "0FC63DAF-8483-4772-8E79-3D69D8477DE4",
    uuid := "6264d520-3fb9-423f-8ab8-7a0a8e3d3562",
    filesystem := some demoRootFS }

/-- The dedicated boot partition of `demoPT` (index 2). -/
def demoBootPart : Partition :=
  { bootable := false, size := 1024000, start := 208896,
    parttype := "0FC63DAF-8483-4772-8E79-3D69D8477DE4",
    uuid := "61b2905b-df3e-4fb3-80fa-49d1e773aa32",
    filesystem := some demoBootFS }

/-- The only partition of `demoPTNoBoot` (index 0). -/
def demoNoBootRootPart : Partition :=
  { bootable := true, size := 2048000, start := 2048, parttype := "83",
    uuid := "6264d520-3fb9-423f-8ab8-7a0a8e3d3562",
    filesystem := some demoRootFS }

/-- The record `grub2StageOptions` produces for `demoRootPart` in UEFI mode
with a non-empty legacy identifier. -/
def demoGrub2UEFIRecord : GRUB2StageOptions :=
  { rootFilesystemUUID := "76a22bf4-f153-4541-b6c7-0332c0dfaeac",
    bootFilesystemUUID := none, kernelOptions := "ro net.ifnames=0",
    legacy := "i386-pc", uefi := some { vendor := "redhat", install := true },
    savedEntry := "" }

/-- The record `grub2StageOptions` produces for `demoRootPart` in legacy
mode with a kernel customization. -/
def demoGrub2KernelRecord : GRUB2StageOptions :=
  { rootFilesystemUUID := "76a22bf4-f153-4541-b6c7-0332c0dfaeac",
    bootFilesystemUUID := none, kernelOptions := "ro net.ifnames=0 quiet",
    legacy := "i386-pc", uefi := none,
    savedEntry := "ffffffffffffffffffffffffffffffff-5.14.0-70.el9.x86_64" }

/-- The record `grub2InstStageOptions` produces for `demoPT`. -/
def demoInstRecord : Grub2InstStageOptions :=
  { filename := "disk.img", platform := "i386-pc", location := 2048,
    core := { imagetype := "mkimage", partLabel := "gpt", filesystem := "xfs" },
    prefixPart := { reftype := "partition", partLabel := "gpt", number := 2,
                    path := "/grub2" } }

/-- The record `grub2InstStageOptions` produces for `demoPTNoBoot`. -/
def demoInstRecordNoBoot : Grub2InstStageOptions :=
  { filename := "disk.img", platform := "i386-pc", location := 2048,
    core := { imagetype := "mkimage", partLabel := "dos", filesystem := "ext4" },
    prefixPart := { reftype := "partition", partLabel := "dos", number := 0,
                    path := "/boot/grub2" } }

/-- A user record carrying an SSH key. -/
def demoUserA : UsersStageOptionsUser :=
  { groups := [], description := none, home := none, shell := none,
    password := none, key := some "ssh-rsa AAA alice-key", uid := none,
    gid := none }

/-- A second user record carrying an SSH key. -/
def demoUserB : UsersStageOptionsUser :=
  { groups := [], description := none, home := none, shell := none,
    password := none, key := some "ssh-rsa BBB bob-key", uid := none,
    gid := none }

/-- One iteration order of a two-user map. -/
def demoUsersOpts1 : UsersStageOptions :=
  { users := [("alice", demoUserA), ("bob", demoUserB)] }

/-- The other iteration order of the same two-user map. -/
def demoUsersOpts2 : UsersStageOptions :=
  { users := [("bob", demoUserB), ("alice", demoUserA)] }

/-- A concrete stand-in for the external SHA-512 crypt function. -/
def demoCrypt : String → Except String String :=
  fun _ => Except.ok "$6$modelsalt$modelhash"

/-- A customization with a plaintext password. -/
def demoAliceCust : UserCustomization :=
  { name := "alice", description := none, password := some "hunter2",
    key := none, home := none, shell := none, groups := [], uid := none,
    gid := none }

/-- A customization with an already-crypted password. -/
def demoBobCust : UserCustomization :=
  { name := "bob", description := some "Bob",
    password := some "$6$salt$alreadycrypted", key := none,
    home := some "/home/bob", shell := some "/bin/bash",
    groups := ["wheel"], uid := some 1001, gid := some 1001 }

/-- The record `userStageOptions` produces for the two customizations. -/
def demoUsersOut : UsersStageOptions :=
  { users :=
      [("alice",
        { groups := [], description := none, home := none, shell := none,
          password := some "$6$modelsalt$modelhash", key := none,
          uid := none, gid := none }),
       ("bob",
        { groups := ["wheel"], description := some "Bob",
          home := some "/home/bob", shell := some "/bin/bash",
          password := some "$6$salt$alreadycrypted", key := none,
          uid := some 1001, gid := some 1001 })] }


/-! ## Order facts about the Go string comparison -/

/-- The Go string comparison agrees with the lexicographic order on the
underlying character lists. -/
theorem goCharsLt_iff_lt : ∀ (as bs : List Char), goCharsLt as bs = true ↔ as < bs := by
  intro as
  induction as with
  | nil =>
    intro bs
    cases bs with
    | nil =>
      refine iff_of_false (by simp [goCharsLt]) ?_
      intro h
      cases h
    | cons b bs' =>
      exact iff_of_true (by simp [goCharsLt]) List.Lex.nil
  | cons a as ih =>
    intro bs
    cases bs with
    | nil =>
      refine iff_of_false (by simp [goCharsLt]) ?_
      intro h
      cases h
    | cons b bs' =>
      simp only [goCharsLt]
      by_cases hab : a < b
      · rw [if_pos hab]
        exact iff_of_true rfl (List.Lex.rel hab)
      · by_cases hba : b < a
        · rw [if_neg hab, if_pos hba]
          refine iff_of_false (by simp) ?_
          intro h
          cases h with
          | cons h' => exact lt_irrefl _ hba
          | rel h' => exact hab h'
        · have heq : a = b := le_antisymm (not_lt.mp hba) (not_lt.mp hab)
          subst heq
          rw [if_neg hab, if_neg hba, ih bs']
          constructor
          · exact fun h => List.Lex.cons h
          · intro h
            cases h with
            | cons h' => exact h'
            | rel h' => exact absurd h' hab

/-- The Go string comparison agrees with the standard string order. -/
theorem goStrLt_iff_lt (s t : String) : goStrLt s t = true ↔ s < t := by
  rw [String.lt_iff_toList_lt]
  exact goCharsLt_iff_lt s.data t.data

/-- The negative form of `goStrLt_iff_lt`. -/
theorem goStrLt_eq_false_iff (s t : String) : goStrLt s t = false ↔ ¬ s < t := by
  rw [← goStrLt_iff_lt]
  cases goStrLt s t <;> simp

/-- A list strictly grows under appending a non-empty tail, in lexicographic
order. -/
theorem goCharsLt_append : ∀ (as r : List Char), r ≠ [] → goCharsLt as (as ++ r) = true := by
  intro as
  induction as with
  | nil =>
    intro r hr
    cases r with
    | nil => exact absurd rfl hr
    | cons c cs => simp [goCharsLt]
  | cons a as ih =>
    intro r hr
    simp only [List.cons_append, goCharsLt]
    rw [if_neg (lt_irrefl a), if_neg (lt_irrefl a)]
    exact ih r hr

/-- A `true` result of `List.isPrefixOf` exhibits the suffix. -/
theorem isPrefixOf_exists_append : ∀ (as bs : List Char), as.isPrefixOf bs = true → ∃ r, bs = as ++ r := by
  intro as
  induction as with
  | nil =>
    intro bs _
    exact ⟨bs, rfl⟩
  | cons a as ih =>
    intro bs h
    cases bs with
    | nil => simp [List.isPrefixOf] at h
    | cons b bs' =>
      simp only [List.isPrefixOf, Bool.and_eq_true, beq_iff_eq] at h
      obtain ⟨h1, h2⟩ := h
      obtain ⟨r, hr⟩ := ih bs' h2
      subst h1
      exact ⟨r, by simp [hr]⟩

/-- A proper path-ancestor is strictly smaller in the lexicographic string
order. -/
theorem isAncestorPath_lt (s t : String) (h : isAncestorPath s t) : s < t := by
  obtain ⟨hne, hpre, _⟩ := h
  obtain ⟨r, hr⟩ := isPrefixOf_exists_append s.data t.data hpre
  have hrne : r ≠ [] := by
    intro h0
    subst h0
    apply hne
    refine congrArg String.mk ?_
    simpa using hr.symm
  have hgo : goCharsLt s.data t.data = true := by
    rw [hr]
    exact goCharsLt_append s.data r hrne
  exact String.lt_iff_toList_lt.mpr ((goCharsLt_iff_lt s.data t.data).mp hgo)

/-- The sorting comparison of `copyFSTreeOptions` is total. -/
theorem mountTargetLe_total : ∀ (a b : Mount), mountTargetLe a b ∨ mountTargetLe b a := by
  intro a b
  unfold mountTargetLe
  by_cases h : b.target < a.target
  · right
    exact (goStrLt_eq_false_iff a.target b.target).mpr (lt_asymm h)
  · left
    exact (goStrLt_eq_false_iff b.target a.target).mpr h

/-- The sorting comparison of `copyFSTreeOptions` is transitive. -/
theorem mountTargetLe_trans : ∀ (a b c : Mount), mountTargetLe a b → mountTargetLe b c → mountTargetLe a c := by
  intro a b c hab hbc
  have hba : ¬ b.target < a.target := (goStrLt_eq_false_iff _ _).mp hab
  have hcb : ¬ c.target < b.target := (goStrLt_eq_false_iff _ _).mp hbc
  refine (goStrLt_eq_false_iff _ _).mpr ?_
  intro hca
  rcases lt_trichotomy a.target b.target with h | h | h
  · exact hcb (lt_trans hca h)
  · exact hcb (h ▸ hca)
  · exact hba h

/-- A mount sorted below another has a target that is smaller or equal. -/
theorem mountTargetLe_lt_or_eq (a b : Mount) (h : mountTargetLe a b) :
    a.target < b.target ∨ a.target = b.target := by
  have hnb : ¬ b.target < a.target := (goStrLt_eq_false_iff _ _).mp h
  rcases lt_trichotomy a.target b.target with h' | h' | h'
  · exact Or.inl h'
  · exact Or.inr h'
  · exact absurd h' hnb

/-- Any list sorted with the mount comparison is in lexicographic target
order and places every proper path-ancestor before its descendants. -/
theorem insertionSort_mounts_ordered (l : List Mount) :
    List.Pairwise (fun a b : Mount => a.target < b.target ∨ a.target = b.target)
      (List.insertionSort mountTargetLe l) ∧
    ∀ i j : Fin (List.insertionSort mountTargetLe l).length,
      isAncestorPath ((List.insertionSort mountTargetLe l).get i).target
        ((List.insertionSort mountTargetLe l).get j).target → (i : Nat) < (j : Nat) := by
  have hT : IsTotal Mount mountTargetLe := ⟨mountTargetLe_total⟩
  have hTr : IsTrans Mount mountTargetLe := ⟨fun a b c => mountTargetLe_trans a b c⟩
  have hsorted : List.Sorted mountTargetLe (List.insertionSort mountTargetLe l) :=
    List.sorted_insertionSort mountTargetLe l
  constructor
  · exact hsorted.imp (fun {a b} hab => mountTargetLe_lt_or_eq a b hab)
  · intro i j hanc
    have hlt : ((List.insertionSort mountTargetLe l).get i).target <
        ((List.insertionSort mountTargetLe l).get j).target :=
      isAncestorPath_lt _ _ hanc
    rcases Nat.lt_trichotomy (i : Nat) (j : Nat) with hij | hij | hij
    · exact hij
    · exfalso
      have hij' : i = j := Fin.ext hij
      subst hij'
      exact hanc.1 rfl
    · exfalso
      have hji : j < i := hij
      have hpw := List.pairwise_iff_get.mp hsorted j i hji
      exact (goStrLt_eq_false_iff _ _).mp hpw hlt

/-! ## The claims -/

/-- C1: For every partition table, the mount list produced by the
partition/mount resolver (`copyFSTreeOptions`) is sorted by mount target
path in plain lexicographic string order, and in the resulting order every
mount whose target path is a path prefix of another mount's target path
appears before that other mount (e.g. `"/"` before `"/boot"` before
`"/boot/efi"`). -/
theorem copyFSTreeOptions_mounts_sorted (inputName inputPipeline : String)
    (pt : PartitionTable) (device : Device) (o : CopyStageOptions)
    (devs : List (String × Device)) (ms : List Mount)
    (h : copyFSTreeOptions inputName inputPipeline pt device = some (o, devs, ms)) :
    List.Pairwise (fun a b : Mount => a.target < b.target ∨ a.target = b.target) ms ∧
    ∀ i j : Fin ms.length,
      isAncestorPath (ms.get i).target (ms.get j).target → (i : Nat) < (j : Nat) := by
  unfold copyFSTreeOptions at h
  cases hd : device.options with
  | nonLoopback =>
    rw [hd] at h
    cases h
  | loopback devOptions =>
    rw [hd] at h
    rcases Option.map_eq_some'.mp h with ⟨acc, hacc, heq⟩
    cases heq
    exact insertionSort_mounts_ordered acc.2

/-- Witness for C1 at the concrete table `demoPT`. -/
theorem copyFSTreeOptions_mounts_sorted_witness :
    List.Pairwise (fun a b : Mount => a.target < b.target ∨ a.target = b.target)
      demoSortedMounts ∧
    ∀ i j : Fin demoSortedMounts.length,
      isAncestorPath (demoSortedMounts.get i).target
        (demoSortedMounts.get j).target → (i : Nat) < (j : Nat) :=
  copyFSTreeOptions_mounts_sorted "tree" "os" demoPT demoDevice demoCopyOpts
    demoDevices demoSortedMounts (by decide)

/-- C9: invoking `grub2StageOptions` with an absent (nil) root partition
always fails fatally (panics), and no stage-option record, partially
populated or otherwise, is returned. -/
theorem grub2StageOptions_nil_root (bootPartition : Option Partition)
    (kernelOptions : String) (kernel : Option KernelCustomization)
    (kernelVer : String) (uefi : Bool) (legacy vendor : String)
    (install : Bool) :
    grub2StageOptions none bootPartition kernelOptions kernel kernelVer uefi
      legacy vendor install = none := rfl

/-- Success inversion for `grub2StageOptions`: any produced record is the
assembled record for some parsed identifiers. -/
theorem grub2StageOptions_ok (rootPartition bootPartition : Option Partition)
    (kernelOptions : String) (kernel : Option KernelCustomization)
    (kernelVer : String) (uefi : Bool) (legacy vendor : String)
    (install : Bool) (r : GRUB2StageOptions)
    (h : grub2StageOptions rootPartition bootPartition kernelOptions kernel
      kernelVer uefi legacy vendor install = some r) :
    ∃ rootUUID bootUUID, r = grub2Assemble rootUUID bootUUID kernelOptions
      kernel kernelVer uefi legacy vendor install := by
  unfold grub2StageOptions at h
  repeat' split at h
  all_goals cases h
  exact ⟨_, _, rfl⟩

/-- Field computation of `grub2Assemble`: the UEFI sub-record is attached
exactly when the flag is set, the legacy field always keeps the supplied
identifier, and the saved entry is the marker exactly when a kernel
customization is supplied. -/
theorem grub2Assemble_fields (rootUUID : String) (bootUUID : Option String)
    (kernelOptions : String) (kernel : Option KernelCustomization)
    (kernelVer : String) (uefi : Bool) (legacy vendor : String)
    (install : Bool) :
    (grub2Assemble rootUUID bootUUID kernelOptions kernel kernelVer uefi
        legacy vendor install).uefi =
      (if uefi then some { vendor := vendor, install := install } else none) ∧
    (grub2Assemble rootUUID bootUUID kernelOptions kernel kernelVer uefi
        legacy vendor install).legacy = legacy ∧
    (grub2Assemble rootUUID bootUUID kernelOptions kernel kernelVer uefi
        legacy vendor install).savedEntry =
      (match kernel with
       | none => ""
       | some _ => "ffffffffffffffffffffffffffffffff-" ++ kernelVer) := by
  cases uefi <;> cases kernel <;> simp [grub2Assemble]

/-- C2 counterexample: at a concrete input with the uefi flag set and a
non-empty legacy platform identifier, the returned record carries the UEFI
sub-record and also still carries the legacy platform identifier, contrary
to the claimed mutual exclusion. -/
theorem grub2StageOptions_uefi_carries_legacy :
    (grub2StageOptions (some demoRootPart) none "ro net.ifnames=0" none ""
        true "i386-pc" "redhat" true).map (fun r => (r.uefi, r.legacy)) =
      some (some { vendor := "redhat", install := true }, "i386-pc") := by
  decide

/-- C2 (amended): for every input on which `grub2StageOptions` succeeds,
when the uefi flag is set the record carries the UEFI sub-record (vendor
string and install flag) and its legacy field is not cleared — it still
equals the caller-supplied legacy platform identifier; when the uefi flag
is unset the record carries the legacy platform identifier and no UEFI
sub-record. The two modes are mutually exclusive only when the caller
passes an empty legacy identifier in UEFI mode. -/
theorem grub2StageOptions_modes (rootPartition bootPartition : Option Partition)
    (kernelOptions : String) (kernel : Option KernelCustomization)
    (kernelVer : String) (uefi : Bool) (legacy vendor : String)
    (install : Bool) (r : GRUB2StageOptions)
    (h : grub2StageOptions rootPartition bootPartition kernelOptions kernel
      kernelVer uefi legacy vendor install = some r) :
    (uefi = true →
      r.uefi = some { vendor := vendor, install := install } ∧ r.legacy = legacy) ∧
    (uefi = false → r.uefi = none ∧ r.legacy = legacy) := by
  obtain ⟨rootUUID, bootUUID, rfl⟩ := grub2StageOptions_ok rootPartition
    bootPartition kernelOptions kernel kernelVer uefi legacy vendor install r h
  obtain ⟨h1, h2, h3⟩ := grub2Assemble_fields rootUUID bootUUID kernelOptions
    kernel kernelVer uefi legacy vendor install
  constructor
  · intro hu
    subst hu
    rw [if_pos rfl] at h1
    exact ⟨h1, h2⟩
  · intro hu
    subst hu
    rw [if_neg (by simp)] at h1
    exact ⟨h1, h2⟩

/-- Witness for C2 (amended) at a concrete UEFI-mode input. -/
theorem grub2StageOptions_modes_witness :
    demoGrub2UEFIRecord.uefi = some { vendor := "redhat", install := true } ∧
      demoGrub2UEFIRecord.legacy = "i386-pc" :=
  (grub2StageOptions_modes (some demoRootPart) none "ro net.ifnames=0" none
    "" true "i386-pc" "redhat" true demoGrub2UEFIRecord (by decide)).1 rfl

/-- C4: on every input on which `grub2StageOptions` succeeds, the
saved-boot-entry marker equals the 32 `'f'` characters, a hyphen, then the
kernel version exactly when the kernel customization carrying the version
is supplied, and no marker (the empty string) is recorded otherwise. -/
theorem grub2StageOptions_savedEntry (rootPartition bootPartition : Option Partition)
    (kernelOptions : String) (kernel : Option KernelCustomization)
    (kernelVer : String) (uefi : Bool) (legacy vendor : String)
    (install : Bool) (r : GRUB2StageOptions)
    (h : grub2StageOptions rootPartition bootPartition kernelOptions kernel
      kernelVer uefi legacy vendor install = some r) :
    (∀ k, kernel = some k →
      r.savedEntry = "ffffffffffffffffffffffffffffffff-" ++ kernelVer) ∧
    (kernel = none → r.savedEntry = "") := by
  obtain ⟨rootUUID, bootUUID, rfl⟩ := grub2StageOptions_ok rootPartition
    bootPartition kernelOptions kernel kernelVer uefi legacy vendor install r h
  have h3 := (grub2Assemble_fields rootUUID bootUUID kernelOptions kernel
    kernelVer uefi legacy vendor install).2.2
  constructor
  · intro k hk
    subst hk
    simpa using h3
  · intro hk
    subst hk
    simpa using h3

/-- Witness for C4: one invocation with a kernel customization, one
without. -/
theorem grub2StageOptions_savedEntry_witness :
    demoGrub2KernelRecord.savedEntry =
      "ffffffffffffffffffffffffffffffff-" ++ "5.14.0-70.el9.x86_64" ∧
    demoGrub2UEFIRecord.savedEntry = "" :=
  ⟨(grub2StageOptions_savedEntry (some demoRootPart) none "ro net.ifnames=0"
      (some { append := "quiet" }) "5.14.0-70.el9.x86_64" false "i386-pc"
      "redhat" true demoGrub2KernelRecord (by decide)).1
      { append := "quiet" } rfl,
   (grub2StageOptions_savedEntry (some demoRootPart) none "ro net.ifnames=0"
      none "" true "i386-pc" "redhat" true demoGrub2UEFIRecord
      (by decide)).2 rfl⟩

/-- C3 counterexample: two invocations of the first-boot generator on
value-identical users maps — the same entries under distinct names, listed
in the two iteration orders a Go map range may produce — yield different
outputs (the command lists differ in order). -/
theorem usersFirstBootOptions_not_deterministic :
    demoUsersOpts1.users.Perm demoUsersOpts2.users ∧
    (demoUsersOpts1.users.map Prod.fst).Nodup ∧
    usersFirstBootOptions demoUsersOpts1 ≠ usersFirstBootOptions demoUsersOpts2 := by
  refine ⟨by decide, by decide, by decide⟩

/-- C3 (amended): every generator is a pure function of its explicit
inputs, which for the first-boot generator include the iteration order of
the users map; two invocations of `usersFirstBootOptions` on
value-identical users maps (the same entries in any iteration order) agree
on the wait-for-network flag and produce the same command multiset — the
per-user command triples merely appear in the respective iteration orders,
so the command list order is not deterministic. -/
theorem usersFirstBootOptions_perm (o1 o2 : UsersStageOptions)
    (h : o1.users.Perm o2.users) :
    (usersFirstBootOptions o1).commands.Perm (usersFirstBootOptions o2).commands ∧
    (usersFirstBootOptions o1).waitForNetwork =
      (usersFirstBootOptions o2).waitForNetwork := by
  constructor
  · exact List.Perm.append_right _ (List.Perm.flatMap_right _ h)
  · rfl

/-- Witness for C3 (amended) at the two iteration orders of the concrete
two-user map. -/
theorem usersFirstBootOptions_perm_witness :
    (usersFirstBootOptions demoUsersOpts1).commands.Perm
      (usersFirstBootOptions demoUsersOpts2).commands ∧
    (usersFirstBootOptions demoUsersOpts1).waitForNetwork =
      (usersFirstBootOptions demoUsersOpts2).waitForNetwork :=
  usersFirstBootOptions_perm demoUsersOpts1 demoUsersOpts2 (by decide)

/-- C5: whenever the boot-sector installer succeeds, the emitted prefix
path is `"/grub2"` exactly when the filesystem of the partition selected by
the boot-partition-index lookup is mounted at `"/boot"`, and
`"/boot/grub2"` in every other case (including the fallback to the root
partition when no dedicated boot partition exists). -/
theorem grub2InstStageOptions_prefixPath (filename : String)
    (pt : PartitionTable) (platform : String) (r : Grub2InstStageOptions)
    (h : grub2InstStageOptions filename pt platform = some r)
    (idx : Nat) (hidx : bootPartitionIndex pt = some idx)
    (p : Partition) (hp : pt.partitions[idx]? = some p)
    (fs : Filesystem) (hfs : p.filesystem = some fs) :
    r.prefixPart.path =
      (if fs.mountpoint = "/boot" then "/grub2" else "/boot/grub2") ∧
    (r.prefixPart.path = "/grub2" ↔ fs.mountpoint = "/boot") := by
  simp only [grub2InstStageOptions, hidx, hp, hfs] at h
  cases h0 : pt.partitions[0]? with
  | none => simp [h0] at h
  | some p0 =>
    simp only [h0] at h
    cases h
    refine ⟨rfl, ?_⟩
    by_cases hm : fs.mountpoint = "/boot"
    · simp [hm]
    · rw [if_neg hm]
      simp [hm]

/-- Witness for C5: the table with a dedicated `/boot` partition gets
`"/grub2"`, the table without one gets `"/boot/grub2"`. -/
theorem grub2InstStageOptions_prefixPath_witness :
    (demoInstRecord.prefixPart.path = "/grub2" ↔
      demoBootFS.mountpoint = "/boot") ∧
    (demoInstRecordNoBoot.prefixPart.path = "/grub2" ↔
      demoRootFS.mountpoint = "/boot") :=
  ⟨(grub2InstStageOptions_prefixPath "disk.img" demoPT "i386-pc"
      demoInstRecord (by decide) 2 (by decide) demoBootPart (by decide)
      demoBootFS rfl).2,
   (grub2InstStageOptions_prefixPath "disk.img" demoPTNoBoot "i386-pc"
      demoInstRecordNoBoot (by decide) 0 (by decide) demoNoBootRootPart
      (by decide) demoRootFS rfl).2⟩

/-- C10: whenever the boot-sector installer succeeds, the `Location` field
of the returned record equals the start offset of the table's first
partition (index 0), regardless of which partition the boot-partition-index
lookup selected; in particular, when the selected boot partition has a
different start offset, `Location` is not the boot partition's start
offset. -/
theorem grub2InstStageOptions_location (filename : String)
    (pt : PartitionTable) (platform : String) (r : Grub2InstStageOptions)
    (h : grub2InstStageOptions filename pt platform = some r) :
    ∃ p0, pt.partitions[0]? = some p0 ∧ r.location = p0.start ∧
      ∀ idx pb, bootPartitionIndex pt = some idx →
        pt.partitions[idx]? = some pb → pb.start ≠ p0.start →
        r.location ≠ pb.start := by
  cases hidx : bootPartitionIndex pt with
  | none => simp [grub2InstStageOptions, hidx] at h
  | some bootPartIndex =>
    cases hbp : pt.partitions[bootPartIndex]? with
    | none => simp [grub2InstStageOptions, hidx, hbp] at h
    | some bootPart =>
      cases hfs : bootPart.filesystem with
      | none => simp [grub2InstStageOptions, hidx, hbp, hfs] at h
      | some bootFS =>
        cases h0 : pt.partitions[0]? with
        | none => simp [grub2InstStageOptions, hidx, hbp, hfs, h0] at h
        | some p0 =>
          simp only [grub2InstStageOptions, hidx, hbp, hfs, h0] at h
          cases h
          refine ⟨p0, rfl, rfl, ?_⟩
          intro idx pb _ _ hne hc
          exact hne hc.symm

/-- Witness for C10 at the concrete table `demoPT`, whose boot partition
(index 2, start 208896) is not the first partition (start 2048). -/
theorem grub2InstStageOptions_location_witness :
    ∃ p0, demoPT.partitions[0]? = some p0 ∧
      demoInstRecord.location = p0.start ∧
      ∀ idx pb, bootPartitionIndex demoPT = some idx →
        demoPT.partitions[idx]? = some pb → pb.start ≠ p0.start →
        demoInstRecord.location ≠ pb.start :=
  grub2InstStageOptions_location "disk.img" demoPT "i386-pc" demoInstRecord
    (by decide)

/-- C6: for both bootable-ISO generators, the EFI architecture token list is
exactly `["IA32", "X64"]` on `"x86_64"` and exactly `["AA64"]` on
`"aarch64"`, any other architecture fails fatally (no record), and in the
hybrid ISO record the legacy ISOLINUX component is enabled exactly on
`"x86_64"`. -/
theorem isoStageOptions_efi_architectures
    (installDevice kernelVer arch vendor product osVersion isolabel : String) :
    ((bootISOMonoStageOptions kernelVer arch vendor product osVersion isolabel).map
        (fun r => (r.efi.architectures, r.isolinux.enabled)) =
      (if arch = "x86_64" then some (["IA32", "X64"], true)
       else if arch = "aarch64" then some (["AA64"], false)
       else none)) ∧
    ((grubISOStageOptions installDevice kernelVer arch vendor product osVersion isolabel).map
        (fun r => r.architectures) =
      (if arch = "x86_64" then some ["IA32", "X64"]
       else if arch = "aarch64" then some ["AA64"]
       else none)) := by
  by_cases h1 : arch = "x86_64"
  · subst h1
    constructor <;>
      simp [bootISOMonoStageOptions, grubISOStageOptions, X86_64ArchName,
        Aarch64ArchName]
  · by_cases h2 : arch = "aarch64"
    · subst h2
      constructor <;>
        simp [bootISOMonoStageOptions, grubISOStageOptions, X86_64ArchName,
          Aarch64ArchName]
    · constructor <;>
        simp [bootISOMonoStageOptions, grubISOStageOptions, X86_64ArchName,
          Aarch64ArchName, h1, h2]

/-- C7: for every architecture and extra-module list, the dracut generator's
module list is the fixed baseline in its fixed order, then `"biosdevname"`
exactly when the architecture is x86_64, then the caller-supplied extra
modules in the order given; and the install-file list always contains
`"/.buildstamp"`. -/
theorem dracutStageOptions_modules (kernelVer arch : String)
    (additionalModules : List String) :
    (dracutStageOptions kernelVer arch additionalModules).modules =
      dracutBaseModules ++ (if arch = "x86_64" then ["biosdevname"] else []) ++
        additionalModules ∧
    "/.buildstamp" ∈ (dracutStageOptions kernelVer arch additionalModules).install := by
  constructor
  · by_cases h : arch = "x86_64" <;>
      simp [dracutStageOptions, X86_64ArchName, h]
  · simp [dracutStageOptions]

/-- An element of a map insertion is an element of the map or the inserted
entry. -/
theorem mem_mapInsert {β : Type} (m : List (String × β)) (k : String) (v : β)
    (e : String × β) (he : e ∈ mapInsert m k v) : e ∈ m ∨ e = (k, v) := by
  unfold mapInsert at he
  by_cases hc : (m.any (fun e => e.1 == k)) = true
  · rw [if_pos hc] at he
    rcases List.mem_map.mp he with ⟨a, ha, hae⟩
    by_cases hk : (a.1 == k) = true
    · rw [if_pos hk] at hae
      exact Or.inr hae.symm
    · rw [if_neg hk] at hae
      exact Or.inl (hae ▸ ha)
  · rw [if_neg hc] at he
    rcases List.mem_append.mp he with h | h
    · exact Or.inl h
    · exact Or.inr (List.mem_singleton.mp h)

/-- Inversion of a successful password resolution. -/
theorem cryptUserPassword_ok (cryptSHA512 : String → Except String String)
    (pw pw' : Option String)
    (h : cryptUserPassword cryptSHA512 pw = Except.ok pw') :
    (pw = none ∧ pw' = none) ∨
    (∃ p, pw = some p ∧ PasswordIsCrypted p = true ∧ pw' = some p) ∨
    (∃ p q, pw = some p ∧ PasswordIsCrypted p = false ∧
      cryptSHA512 p = Except.ok q ∧ pw' = some q) := by
  cases pw with
  | none =>
    simp only [cryptUserPassword] at h
    injection h with h
    exact Or.inl ⟨rfl, h.symm⟩
  | some p =>
    simp only [cryptUserPassword] at h
    by_cases hcr : PasswordIsCrypted p = true
    · rw [if_pos hcr] at h
      injection h with h
      exact Or.inr (Or.inl ⟨p, rfl, hcr, h.symm⟩)
    · rw [if_neg hcr] at h
      have hcrf : PasswordIsCrypted p = false := by
        revert hcr
        cases PasswordIsCrypted p <;> simp
      cases hcs : cryptSHA512 p with
      | error e =>
        rw [hcs] at h
        simp only [Except.map] at h
        exact Except.noConfusion h
      | ok q =>
        rw [hcs] at h
        simp only [Except.map] at h
        injection h with h
        exact Or.inr (Or.inr ⟨p, q, rfl, hcrf, hcs, h.symm⟩)

/-- Inversion of one successful `userStageOptions` iteration. -/
theorem userStageOptionsStep_ok (cryptSHA512 : String → Except String String)
    (acc : List (String × UsersStageOptionsUser)) (c : UserCustomization)
    (acc' : List (String × UsersStageOptionsUser))
    (h : userStageOptionsStep cryptSHA512 acc c = Except.ok acc') :
    ∃ u, pwSpec cryptSHA512 c u ∧ acc' = mapInsert acc c.name u := by
  unfold userStageOptionsStep at h
  cases hc : cryptUserPassword cryptSHA512 c.password with
  | error e =>
    rw [hc] at h
    simp only [Except.map] at h
    exact Except.noConfusion h
  | ok pw =>
    rw [hc] at h
    simp only [Except.map] at h
    injection h with h
    refine ⟨{ groups := c.groups, description := c.description, home := c.home,
              shell := c.shell, password := pw, key := c.key, uid := c.uid,
              gid := c.gid }, ?_, h.symm⟩
    have hinv := cryptUserPassword_ok cryptSHA512 c.password pw hc
    unfold pwSpec
    rcases hinv with ⟨h1, h2⟩ | ⟨p, h1, h2, h3⟩ | ⟨p, q, h1, h2, h3, h4⟩
    · exact Or.inl ⟨h1, h2⟩
    · exact Or.inr (Or.inl ⟨p, h1, h2, h3⟩)
    · exact Or.inr (Or.inr ⟨p, q, h1, h2, h3, h4⟩)

/-- Every entry of a successful `userStageOptions` fold comes from the
starting accumulator or from one of the processed customizations. -/
theorem userStage_foldlM_mem (cryptSHA512 : String → Except String String) :
    ∀ (users : List UserCustomization)
      (acc m : List (String × UsersStageOptionsUser)),
      List.foldlM (userStageOptionsStep cryptSHA512) acc users = Except.ok m →
      ∀ e ∈ m, e ∈ acc ∨ ∃ c ∈ users, c.name = e.1 ∧ pwSpec cryptSHA512 c e.2 := by
  intro users
  induction users with
  | nil =>
    intro acc m h e he
    rw [List.foldlM_nil] at h
    injection h with h
    subst h
    exact Or.inl he
  | cons c cs ih =>
    intro acc m h e he
    rw [List.foldlM_cons] at h
    cases hstep : userStageOptionsStep cryptSHA512 acc c with
    | error err =>
      rw [hstep] at h
      exact Except.noConfusion h
    | ok acc1 =>
      rw [hstep] at h
      have h' : List.foldlM (userStageOptionsStep cryptSHA512) acc1 cs =
          Except.ok m := h
      rcases ih acc1 m h' e he with hacc1 | ⟨c', hc', hn, hs⟩
      · obtain ⟨u, hu, hacc1eq⟩ :=
          userStageOptionsStep_ok cryptSHA512 acc c acc1 hstep
        subst hacc1eq
        rcases mem_mapInsert acc c.name u e hacc1 with hm | hm
        · exact Or.inl hm
        · subst hm
          exact Or.inr ⟨c, List.mem_cons_self c cs, rfl, hu⟩
      · exact Or.inr ⟨c', List.mem_cons_of_mem c hc', hn, hs⟩

/-- A successful fold implies the crypt function succeeded on every
plaintext (non-crypted) password among the processed customizations. -/
theorem userStage_foldlM_crypt_ok (cryptSHA512 : String → Except String String) :
    ∀ (users : List UserCustomization)
      (acc m : List (String × UsersStageOptionsUser)),
      List.foldlM (userStageOptionsStep cryptSHA512) acc users = Except.ok m →
      ∀ c ∈ users, ∀ p, c.password = some p → PasswordIsCrypted p = false →
        ∃ q, cryptSHA512 p = Except.ok q := by
  intro users
  induction users with
  | nil =>
    intro acc m h c hc
    exact absurd hc (List.not_mem_nil c)
  | cons c0 cs ih =>
    intro acc m h c hc p hp hcr
    rw [List.foldlM_cons] at h
    cases hstep : userStageOptionsStep cryptSHA512 acc c0 with
    | error err =>
      rw [hstep] at h
      exact Except.noConfusion h
    | ok acc1 =>
      rw [hstep] at h
      have h' : List.foldlM (userStageOptionsStep cryptSHA512) acc1 cs =
          Except.ok m := h
      rcases List.mem_cons.mp hc with rfl | hmem
      · obtain ⟨u, hu, _⟩ := userStageOptionsStep_ok cryptSHA512 acc c acc1 hstep
        unfold pwSpec at hu
        rcases hu with ⟨h1, _⟩ | ⟨p', h1, h2, _⟩ | ⟨p', q, h1, h2, h3, _⟩
        · rw [hp] at h1
          exact Option.noConfusion h1
        · rw [hp] at h1
          injection h1 with h1
          subst h1
          rw [hcr] at h2
          exact Bool.noConfusion h2
        · rw [hp] at h1
          injection h1 with h1
          subst h1
          exact ⟨q, h3⟩
      · exact ih acc1 m h' c hmem p hp hcr

/-- A string with the SHA-512 crypt prefix is recognised as crypted. -/
theorem passwordIsCrypted_of_sha512 (q : String)
    (h : goStartsWith q "$6$" = true) : PasswordIsCrypted q = true := by
  unfold PasswordIsCrypted
  rw [h]
  rfl

/-- C8: in the user-provisioning generator `userStageOptions` (with the
external SHA-512 crypt collaborator as a parameter whose outputs carry the
`$6$` crypt prefix): every embedded user record's password is either
absent, a recognised-crypted input password passed through unchanged, or
the crypt function's output for a plaintext input password; a plaintext
(non-crypted) input password is never the password of any embedded record;
and when hashing fails for some user's plaintext password, a recoverable
error is returned and no record is produced. -/
theorem userStageOptions_password_handling
    (cryptSHA512 : String → Except String String)
    (hcrypt : ∀ p q, cryptSHA512 p = Except.ok q → goStartsWith q "$6$" = true)
    (users : List UserCustomization) :
    (∀ opts, userStageOptions cryptSHA512 users = Except.ok opts →
      (∀ e ∈ opts.users, ∃ c ∈ users, c.name = e.1 ∧ pwSpec cryptSHA512 c e.2) ∧
      (∀ c ∈ users, ∀ p, c.password = some p → PasswordIsCrypted p = false →
        ∀ e ∈ opts.users, e.2.password ≠ some p)) ∧
    ((∃ c ∈ users, ∃ p, c.password = some p ∧ PasswordIsCrypted p = false ∧
        ∀ q, cryptSHA512 p ≠ Except.ok q) →
      ∃ err, userStageOptions cryptSHA512 users = Except.error err) := by
  constructor
  · intro opts hok
    unfold userStageOptions at hok
    cases hf : List.foldlM (userStageOptionsStep cryptSHA512) [] users with
    | error e =>
      rw [hf] at hok
      simp only [Except.map] at hok
      exact Except.noConfusion hok
    | ok mres =>
      rw [hf] at hok
      simp only [Except.map] at hok
      injection hok with hok
      subst hok
      have hmem : ∀ e ∈ mres, ∃ c ∈ users, c.name = e.1 ∧ pwSpec cryptSHA512 c e.2 := by
        intro e he
        rcases userStage_foldlM_mem cryptSHA512 users [] mres hf e he with h0 | h0
        · exact absurd h0 (List.not_mem_nil e)
        · exact h0
      constructor
      · exact hmem
      · intro c hc p hp hcr e he hpe
        rcases hmem e he with ⟨c', hc', hn, hs⟩
        unfold pwSpec at hs
        rcases hs with ⟨_, h2⟩ | ⟨p', _, h2, h3⟩ | ⟨p', q, _, h2, h3, h4⟩
        · rw [hpe] at h2
          exact Option.noConfusion h2
        · rw [hpe] at h3
          injection h3 with h3
          subst h3
          rw [hcr] at h2
          exact Bool.noConfusion h2
        · rw [hpe] at h4
          injection h4 with h4
          have hq := passwordIsCrypted_of_sha512 q (hcrypt p' q h3)
          rw [← h4, hcr] at hq
          exact Bool.noConfusion hq
  · rintro ⟨c, hc, p, hp, hcr, hfail⟩
    cases hres : userStageOptions cryptSHA512 users with
    | error err => exact ⟨err, rfl⟩
    | ok opts =>
      exfalso
      unfold userStageOptions at hres
      cases hf : List.foldlM (userStageOptionsStep cryptSHA512) [] users with
      | error e =>
        rw [hf] at hres
        simp only [Except.map] at hres
        exact Except.noConfusion hres
      | ok mres =>
        obtain ⟨q, hq⟩ :=
          userStage_foldlM_crypt_ok cryptSHA512 users [] mres hf c hc p hp hcr
        exact hfail q hq

/-- Witness for C8 at a concrete crypt function and user list: the run
succeeds and the plaintext password `"hunter2"` appears as no output
record's password. -/
theorem userStageOptions_password_handling_witness :
    userStageOptions demoCrypt [demoAliceCust, demoBobCust] =
      Except.ok demoUsersOut ∧
    ∀ e ∈ demoUsersOut.users, e.2.password ≠ some "hunter2" := by
  have hcrypt : ∀ p q, demoCrypt p = Except.ok q → goStartsWith q "$6$" = true := by
    intro p q h
    unfold demoCrypt at h
    injection h with h
    subst h
    decide
  have hok : userStageOptions demoCrypt [demoAliceCust, demoBobCust] =
      Except.ok demoUsersOut := by rfl
  refine ⟨hok, ?_⟩
  intro e he
  exact ((userStageOptions_password_handling demoCrypt hcrypt
      [demoAliceCust, demoBobCust]).1 demoUsersOut hok).2 demoAliceCust
    (List.mem_cons_self _ _) "hunter2" rfl (by decide) e he
